import Mathlib

/-!
# Verification of the Arcade platformer event handlers

Shallow embedding of the two Python source files of the repository:

* `Tutorial` embeds `src/arcarde_tutorial.py` (spec "variants 1/2"): key-state
  flags drive instant horizontal speed and a grounded-only jump impulse.
* `TestReal` embeds `src/test_real.py` (spec "variant 3"): an acceleration
  easing accumulator drives a smoothed horizontal speed, and a `jump_state`
  counter animates and fires the jump impulse.

Library-owned behaviour (the arcade physics engine, collision queries, the
tile map) is modelled as a nondeterministic environment: each simulation tick
carries an `Env` record saying what the physics engine did to the player's
vertical velocity and position and which coin sprites the collision query
reports as overlapping the player.  Python floats are modelled as rationals.
-/

namespace Tutorial

/-- `PLAYER_MOVEMENT_SPEED = 10` in src/arcarde_tutorial.py. -/
def PLAYER_MOVEMENT_SPEED : ℚ := 10

/-- `GRAVITY = 1` in src/arcarde_tutorial.py. -/
def GRAVITY : ℚ := 1

/-- `PLAYER_JUMP_SPEED = 20` in src/arcarde_tutorial.py. -/
def PLAYER_JUMP_SPEED : ℚ := 20

/-- `SCREEN_WIDTH = 1000`. -/
def SCREEN_WIDTH : ℚ := 1000

/-- `SCREEN_HEIGHT = 650`. -/
def SCREEN_HEIGHT : ℚ := 650

/-- The state of `MyGame` in src/arcarde_tutorial.py that the claims touch:
key flags, the player sprite's velocity and centre, the score, the coin
sprite list (coins named by opaque ids) and the camera position. -/
structure GameState where
  left_pressed : Bool
  right_pressed : Bool
  up_pressed : Bool
  down_pressed : Bool
  change_x : ℚ
  change_y : ℚ
  center_x : ℚ
  center_y : ℚ
  score : ℕ
  coins : List ℕ
  camera : ℚ × ℚ
deriving Repr, DecidableEq

/-- What the library does during one tick: the platformer physics engine
rewrites the player's vertical velocity (gravity / collision response) and
position, and the collision query reports which coins overlap the player. -/
structure Env where
  newChangeY : ℚ
  newCenterX : ℚ
  newCenterY : ℚ
  overlaps : ℕ → Bool

/-- `MyGame.update_player_vertical_speed` (lines 142-153): if `up_pressed`,
clear the flag and, when the physics engine reports the player grounded,
set the vertical velocity to the jump speed; otherwise clip the vertical
velocity at zero. -/
def update_player_vertical_speed (canJump : Bool) (s : GameState) : GameState :=
  if s.up_pressed then
    let s1 := { s with up_pressed := false }
    if canJump then { s1 with change_y := PLAYER_JUMP_SPEED } else s1
  else
    { s with change_y := min s.change_y 0 }

/-- `MyGame.update_player_horizontal_speed` (lines 155-164). -/
def update_player_horizontal_speed (s : GameState) : GameState :=
  if s.left_pressed ∧ ¬ s.right_pressed then
    { s with change_x := -PLAYER_MOVEMENT_SPEED }
  else if s.right_pressed ∧ ¬ s.left_pressed then
    { s with change_x := PLAYER_MOVEMENT_SPEED }
  else if s.right_pressed = s.left_pressed then
    { s with change_x := 0 }
  else s

/-- The keys the handlers react to. -/
inductive Key where
  | up
  | left
  | right
  | down
  | other
deriving Repr, DecidableEq

/-- `MyGame.on_key_press` (lines 167-185).  `canJump` is what
`physics_engine.can_jump()` returns at that instant. -/
def on_key_press (k : Key) (canJump : Bool) (s : GameState) : GameState :=
  match k with
  | Key.up =>
      let s1 := { s with up_pressed := true }
      if canJump then update_player_vertical_speed canJump s1 else s1
  | Key.left => update_player_horizontal_speed { s with left_pressed := true }
  | Key.right => update_player_horizontal_speed { s with right_pressed := true }
  | _ => s

/-- `MyGame.on_key_release` (lines 187-204). -/
def on_key_release (k : Key) (canJump : Bool) (s : GameState) : GameState :=
  match k with
  | Key.up => update_player_vertical_speed canJump { s with up_pressed := false }
  | Key.left => update_player_horizontal_speed { s with left_pressed := false }
  | Key.right => update_player_horizontal_speed { s with right_pressed := false }
  | _ => s

/-- The physics engine step `physics_engine.update()`: library-owned, so its
effect on vertical velocity and position is taken from the environment. -/
def physics_update (env : Env) (s : GameState) : GameState :=
  { s with change_y := env.newChangeY
           center_x := env.newCenterX
           center_y := env.newCenterY }

/-- The coin-collection block of `on_update`: every coin the collision query
reports as overlapping is removed from the sprite lists, and the score is
incremented by one per removed coin. -/
def coin_update (env : Env) (s : GameState) : GameState :=
  { s with coins := s.coins.filter (fun c => ! env.overlaps c)
           score := s.score + (s.coins.filter (fun c => env.overlaps c)).length }

/-- `MyGame.center_camera_to_player` (lines 209-229), as a pure function of
the player centre and viewport extent: subtract half the viewport and clamp
each component below at 0. -/
def center_camera_to_player (px py vw vh : ℚ) : ℚ × ℚ :=
  let screen_center_x := px - vw / 2
  let screen_center_y := py - vh / 2
  let screen_center_x := if screen_center_x < 0 then 0 else screen_center_x
  let screen_center_y := if screen_center_y < 0 then 0 else screen_center_y
  (screen_center_x, screen_center_y)

/-- `MyGame.on_update` (lines 231-255): physics step, coin collection,
camera follow.  (The earlier one-line `on_update` at line 206 is shadowed by
this later definition in Python.) -/
def on_update (env : Env) (s : GameState) : GameState :=
  let s1 := physics_update env s
  let s2 := coin_update env s1
  { s2 with camera := center_camera_to_player s2.center_x s2.center_y SCREEN_WIDTH SCREEN_HEIGHT }

/-- The events the window delivers: key presses and releases (each carrying
the physics engine's `can_jump()` answer at that instant) and simulation
ticks. -/
inductive Event where
  | press (k : Key) (canJump : Bool)
  | release (k : Key) (canJump : Bool)
  | tick (env : Env)

/-- One event-handler invocation. -/
def step : Event → GameState → GameState
  | Event.press k cj => on_key_press k cj
  | Event.release k cj => on_key_release k cj
  | Event.tick env => on_update env

/-- Run a sequence of events. -/
def run : List Event → GameState → GameState
  | [], s => s
  | e :: es, s => run es (step e s)

end Tutorial

namespace TestReal

/-- `PLAYER_MOVEMENT_SPEED = 5` in src/test_real.py. -/
def PLAYER_MOVEMENT_SPEED : ℚ := 5

/-- `GRAVITY = 0.7` in src/test_real.py. -/
def GRAVITY : ℚ := 7 / 10

/-- `PLAYER_JUMP_SPEED = 12` in src/test_real.py. -/
def PLAYER_JUMP_SPEED : ℚ := 12

/-- `ACCELERATION_RATE = 0.1`. -/
def ACCELERATION_RATE : ℚ := 1 / 10

/-- `DECELERATION_RATE = 0.1`. -/
def DECELERATION_RATE : ℚ := 1 / 10

/-- `SCREEN_WIDTH = 1000`. -/
def SCREEN_WIDTH : ℚ := 1000

/-- `SCREEN_HEIGHT = 650`. -/
def SCREEN_HEIGHT : ℚ := 650

/-- The state of `PlayerCharacter` in src/test_real.py that the claims touch.
`textureIdx` records which of the twelve squish textures is current (the
index into `jump_textures`); the texture bitmaps themselves are
library-owned. -/
structure PlayerState where
  up_pressed : Bool
  jumping : Bool
  down : Bool
  jump_state : ℤ
  change_y : ℚ
  change_x : ℚ
  center_x : ℚ
  center_y : ℚ
  textureIdx : ℤ
deriving Repr, DecidableEq

/-- `PlayerCharacter.update_animation` (lines 61-78): copy `up_pressed` into
`jumping`; if `jump_state` is 6, fire the jump impulse (vertical velocity to
`PLAYER_JUMP_SPEED`) and reset `jump_state` to 1; then, if jumping and the
(current) vertical velocity is exactly 0 with `jump_state` at most 6, advance
`jump_state` by one and swap the texture; otherwise, if not jumping and the
vertical velocity is nonzero, reset `jump_state` to 1 and swap the texture. -/
def update_animation (p : PlayerState) : PlayerState :=
  let p1 := { p with jumping := p.up_pressed }
  let p2 :=
    if p1.jump_state = 6 then
      { p1 with change_y := PLAYER_JUMP_SPEED, jump_state := 1 }
    else p1
  if p2.jumping then
    if p2.jump_state ≤ 6 ∧ p2.change_y = 0 then
      { p2 with jump_state := p2.jump_state + 1, textureIdx := p2.jump_state + 1 - 1 }
    else p2
  else if p2.change_y ≠ 0 then
    { p2 with down := false, jump_state := 1, textureIdx := 1 - 1 }
  else p2

/-- The state of `MyGame` in src/test_real.py that the claims touch. -/
structure GameState where
  player : PlayerState
  left_pressed : Bool
  right_pressed : Bool
  down_pressed : Bool
  score : ℕ
  acceleration : ℚ
  frame : ℕ
  coins : List ℕ
  camera : ℚ × ℚ
deriving Repr

/-- What the library does during one tick, as in the tutorial variant. -/
structure Env where
  newChangeY : ℚ
  newCenterX : ℚ
  newCenterY : ℚ
  overlaps : ℕ → Bool

/-- The state after `MyGame.__init__` and `MyGame.setup`: flags cleared,
score and acceleration zero, the player at (80, 96) with `jump_state = 1`,
and whatever coin sprites the tile map provided. -/
def initState (coins0 : List ℕ) : GameState :=
  { player :=
      { up_pressed := false
        jumping := false
        down := false
        jump_state := 1
        change_y := 0
        change_x := 0
        center_x := 80
        center_y := 96
        textureIdx := 0 }
    left_pressed := false
    right_pressed := false
    down_pressed := false
    score := 0
    acceleration := 0
    frame := 0
    coins := coins0
    camera := (0, 0) }

/-- The acceleration block of `MyGame.on_update` (lines 282-293): only when
`acceleration` is within [-1, 1], nudge it toward ±1 when exactly one
horizontal key is held, and otherwise decay it toward 0, clamping at the
respective bound. -/
def acceleration_update (s : GameState) : GameState :=
  if -1 ≤ s.acceleration ∧ s.acceleration ≤ 1 then
    if s.right_pressed ∧ ¬ s.left_pressed then
      { s with acceleration := min (s.acceleration + ACCELERATION_RATE) 1 }
    else if s.left_pressed ∧ ¬ s.right_pressed then
      { s with acceleration := max (s.acceleration - ACCELERATION_RATE) (-1) }
    else
      if s.acceleration < 0 then
        { s with acceleration := min (s.acceleration + DECELERATION_RATE) 0 }
      else
        { s with acceleration := max (s.acceleration - DECELERATION_RATE) 0 }
  else s

/-- The guarded animation call in `on_update` (lines 295-296):
`scene.update_animation` runs only when `physics_engine.can_jump()` reports
the player grounded; for the player sprite it invokes
`PlayerCharacter.update_animation`. -/
def animation_phase (canJump : Bool) (s : GameState) : GameState :=
  if canJump then { s with player := update_animation s.player } else s

/-- `MyGame.update_player_horizontal_speed` (lines 201-210): the smoothed
horizontal speed derived from `acceleration` (`0.5` is written `1/2`). -/
def update_player_horizontal_speed (s : GameState) : GameState :=
  let leftSpeed : ℚ :=
    max (-PLAYER_MOVEMENT_SPEED)
      (min (PLAYER_MOVEMENT_SPEED * s.acceleration)
        (PLAYER_MOVEMENT_SPEED * (1 / 2) * (s.acceleration - 1)))
  let rightSpeed : ℚ :=
    min PLAYER_MOVEMENT_SPEED
      (max (PLAYER_MOVEMENT_SPEED * s.acceleration)
        (PLAYER_MOVEMENT_SPEED * (1 / 2) * (s.acceleration + 1)))
  if s.left_pressed ∧ ¬ s.right_pressed then
    { s with player := { s.player with change_x := leftSpeed } }
  else if s.right_pressed ∧ ¬ s.left_pressed then
    { s with player := { s.player with change_x := rightSpeed } }
  else if s.right_pressed = s.left_pressed then
    { s with player := { s.player with change_x := PLAYER_MOVEMENT_SPEED * s.acceleration } }
  else s

/-- Python's built-in `round` on a rational: nearest integer, ties to even. -/
def pythonRound (q : ℚ) : ℤ :=
  let f : ℤ := Int.floor q
  let r : ℚ := q - f
  if r < 1 / 2 then f
  else if 1 / 2 < r then f + 1
  else if f % 2 = 0 then f else f + 1

/-- `physics_engine.update()`: library-owned, modelled by the environment. -/
def physics_update (env : Env) (s : GameState) : GameState :=
  { s with player := { s.player with change_y := env.newChangeY
                                     center_x := env.newCenterX
                                     center_y := env.newCenterY } }

/-- The coin-collection block of `on_update` (lines 307-321). -/
def coin_update (env : Env) (s : GameState) : GameState :=
  { s with coins := s.coins.filter (fun c => ! env.overlaps c)
           score := s.score + (s.coins.filter (fun c => env.overlaps c)).length }

/-- `MyGame.center_camera_to_player` (lines 250-270): subtract half the
viewport, clamp the horizontal offset below at 32 and the vertical offset
below at 0. -/
def center_camera_to_player (px py vw vh : ℚ) : ℚ × ℚ :=
  let screen_center_x := px - vw / 2
  let screen_center_y := py - vh / 2
  let screen_center_x := if screen_center_x < 32 then 32 else screen_center_x
  let screen_center_y := if screen_center_y < 0 then 0 else screen_center_y
  (screen_center_x, screen_center_y)

/-- `MyGame.on_update` (lines 272-326): bump the frame counter, update the
acceleration, run the (grounded-guarded) animation, derive the horizontal
speed, round the player's x centre, run the physics engine, collect coins,
and recentre the camera. -/
def on_update (canJump : Bool) (env : Env) (s : GameState) : GameState :=
  let s1 := { s with frame := s.frame + 1 }
  let s2 := acceleration_update s1
  let s3 := animation_phase canJump s2
  let s4 := update_player_horizontal_speed s3
  let s5 := { s4 with player := { s4.player with center_x := (pythonRound s4.player.center_x : ℚ) } }
  let s6 := physics_update env s5
  let s7 := coin_update env s6
  { s7 with camera := center_camera_to_player s7.player.center_x s7.player.center_y SCREEN_WIDTH SCREEN_HEIGHT }

/-- The events delivered to variant 3: the UP/LEFT/RIGHT key handlers
(lines 213-248) and simulation ticks.  `releaseUp` and `tick` carry the
physics engine's `can_jump()` answer at that instant. -/
inductive Event where
  | pressUp
  | pressLeft
  | pressRight
  | releaseUp (canJump : Bool)
  | releaseLeft
  | releaseRight
  | tick (canJump : Bool) (env : Env)

/-- `on_key_press` for UP (lines 220-222): record the press on the player
sprite and restart the pose counter. -/
def on_key_press_up (s : GameState) : GameState :=
  { s with player := { s.player with up_pressed := true, jump_state := 1 } }

/-- `on_key_release` for UP (lines 238-241): clear the press flag and, when
the pose counter is not already 6 and the player is grounded, set it to 6 so
the next grounded tick fires the jump. -/
def on_key_release_up (canJump : Bool) (s : GameState) : GameState :=
  let s1 := { s with player := { s.player with up_pressed := false } }
  if s1.player.jump_state ≠ 6 ∧ canJump then
    { s1 with player := { s1.player with jump_state := 6 } }
  else s1

/-- One event-handler invocation. -/
def step : Event → GameState → GameState
  | Event.pressUp => on_key_press_up
  | Event.pressLeft => fun s => { s with left_pressed := true }
  | Event.pressRight => fun s => { s with right_pressed := true }
  | Event.releaseUp cj => on_key_release_up cj
  | Event.releaseLeft => fun s => { s with left_pressed := false }
  | Event.releaseRight => fun s => { s with right_pressed := false }
  | Event.tick cj env => on_update cj env

/-- Run a sequence of events. -/
def run : List Event → GameState → GameState
  | [], s => s
  | e :: es, s => run es (step e s)

end TestReal

/-! ## Concrete states used to exercise the theorems -/

/-- A variant-3 player mid-anticipation: grounded (zero vertical velocity),
UP held, pose counter at 3. -/
def playerAdvancing : TestReal.PlayerState :=
  { up_pressed := true, jumping := true, down := false, jump_state := 3
    change_y := 0, change_x := 0, center_x := 80, center_y := 96, textureIdx := 2 }

/-- A variant-3 player whose pose counter has reached 6: the next grounded
animation tick fires the jump impulse. -/
def playerFiring : TestReal.PlayerState :=
  { up_pressed := false, jumping := false, down := false, jump_state := 6
    change_y := 0, change_x := 0, center_x := 80, center_y := 96, textureIdx := 5 }

/-- A variant-3 player airborne (nonzero vertical velocity) with UP released. -/
def playerAirborne : TestReal.PlayerState :=
  { up_pressed := false, jumping := false, down := false, jump_state := 3
    change_y := 5, change_x := 0, center_x := 80, center_y := 96, textureIdx := 2 }

/-- A variant-3 game state wrapping `playerFiring`, grounded and idle. -/
def gameFiring : TestReal.GameState :=
  { player := playerFiring
    left_pressed := false
    right_pressed := false
    down_pressed := false
    score := 0
    acceleration := 0
    frame := 0
    coins := []
    camera := (0, 0) }

/-- A variant-3 game state mid-run: positive acceleration, RIGHT held. -/
def gameRunning : TestReal.GameState :=
  { player := playerAdvancing
    left_pressed := false
    right_pressed := true
    down_pressed := false
    score := 0
    acceleration := mkRat 1 2
    frame := 7
    coins := [0, 1]
    camera := (32, 0) }

/-- A tutorial-variant (variants 1/2) game state: grounded, LEFT held. -/
def tutorialLeft : Tutorial.GameState :=
  { left_pressed := true
    right_pressed := false
    up_pressed := false
    down_pressed := false
    change_x := 0
    change_y := 3
    center_x := 128
    center_y := 128
    score := 0
    coins := [0, 1, 2]
    camera := (0, 0) }

/-- A tutorial-variant game state: UP held, about to jump. -/
def tutorialJumping : Tutorial.GameState :=
  { left_pressed := false
    right_pressed := false
    up_pressed := true
    down_pressed := false
    change_x := 0
    change_y := 0
    center_x := 128
    center_y := 128
    score := 2
    coins := []
    camera := (0, 0) }

/-! ## Facts about the jump-animation state machine (variant 3) -/

namespace TestReal

/-- The only write to the vertical velocity in `update_animation` is the jump
impulse, fired exactly when the pose counter is at 6 on entry. -/
theorem update_animation_change_y (p : PlayerState) :
    (update_animation p).change_y =
      if p.jump_state = 6 then PLAYER_JUMP_SPEED else p.change_y := by
  by_cases h6 : p.jump_state = 6 <;>
    simp only [update_animation, h6, if_true, if_false, ite_true, ite_false] <;>
    split_ifs <;> simp_all

/-- Firing the impulse resets the pose counter to 1. -/
theorem update_animation_fire (p : PlayerState) (h6 : p.jump_state = 6) :
    (update_animation p).change_y = PLAYER_JUMP_SPEED ∧
      (update_animation p).jump_state = 1 := by
  simp only [update_animation, h6, if_true, ite_true]
  split_ifs <;> simp_all [PLAYER_JUMP_SPEED]

/-- While a jump is in progress and the vertical velocity is exactly zero,
the pose counter advances by one (pose counter below 6 on entry). -/
theorem update_animation_advance (p : PlayerState) (hle : p.jump_state ≤ 6)
    (h6 : p.jump_state ≠ 6) (hup : p.up_pressed = true) (hcy : p.change_y = 0) :
    (update_animation p).jump_state = p.jump_state + 1 := by
  simp only [update_animation, h6, hup, hcy, if_false, ite_false]
  split_ifs <;> simp_all

/-- With no jump in progress and a nonzero vertical velocity, the pose
counter resets to 1. -/
theorem update_animation_reset (p : PlayerState) (h6 : p.jump_state ≠ 6)
    (hup : p.up_pressed = false) (hcy : p.change_y ≠ 0) :
    (update_animation p).jump_state = 1 := by
  simp only [update_animation, h6, hup, hcy, if_false, ite_false]
  split_ifs <;> simp_all

/-- `update_animation` keeps the pose counter in [1, 6]. -/
theorem update_animation_range (p : PlayerState) (h1 : 1 ≤ p.jump_state)
    (h6 : p.jump_state ≤ 6) :
    1 ≤ (update_animation p).jump_state ∧ (update_animation p).jump_state ≤ 6 := by
  by_cases hj : p.jump_state = 6 <;>
    simp only [update_animation, hj, if_true, if_false, ite_true, ite_false] <;>
    split_ifs <;> constructor <;> simp_all <;> omega

end TestReal

/-! ## Claim C1 -/

/-- C1: in variant 3 (src/test_real.py), for every call of
`PlayerCharacter.update_animation` at a reachable pose counter (which stays
in [1, 6]): if `jump_state` is 6 on entry, the vertical velocity is set to
`PLAYER_JUMP_SPEED` (12) and `jump_state` is reset to 1; otherwise, while a
jump is in progress (`up_pressed`) and `change_y` is exactly 0, `jump_state`
advances by exactly one; and when no jump is in progress and `change_y` is
nonzero, `jump_state` is reset to 1. -/
theorem update_animation_spec (p : TestReal.PlayerState) :
    (p.jump_state = 6 →
      (TestReal.update_animation p).change_y = TestReal.PLAYER_JUMP_SPEED ∧
        (TestReal.update_animation p).jump_state = 1 ∧
        TestReal.PLAYER_JUMP_SPEED = 12)
    ∧ (p.jump_state ≤ 6 → p.jump_state ≠ 6 → p.up_pressed = true →
        p.change_y = 0 →
        (TestReal.update_animation p).jump_state = p.jump_state + 1)
    ∧ (p.jump_state ≠ 6 → p.up_pressed = false → p.change_y ≠ 0 →
        (TestReal.update_animation p).jump_state = 1) := by
  refine ⟨fun h6 => ?_, fun hle h6 hup hcy => ?_, fun h6 hup hcy => ?_⟩
  · rcases TestReal.update_animation_fire p h6 with ⟨hy, hs⟩
    exact ⟨hy, hs, by norm_num [TestReal.PLAYER_JUMP_SPEED]⟩
  · exact TestReal.update_animation_advance p hle h6 hup hcy
  · exact TestReal.update_animation_reset p h6 hup hcy

/-- C1 exercised on concrete inputs: the impulse fires from pose 6, the pose
advances from 3 while grounded and jumping, and it resets to 1 while
airborne and not jumping. -/
theorem update_animation_spec_witness :
    ((TestReal.update_animation playerFiring).change_y = TestReal.PLAYER_JUMP_SPEED ∧
      (TestReal.update_animation playerFiring).jump_state = 1 ∧
      TestReal.PLAYER_JUMP_SPEED = 12)
    ∧ (TestReal.update_animation playerAdvancing).jump_state = 3 + 1
    ∧ (TestReal.update_animation playerAirborne).jump_state = 1 :=
  ⟨(update_animation_spec playerFiring).1 rfl,
    (update_animation_spec playerAdvancing).2.1 (by decide) (by decide) rfl rfl,
    (update_animation_spec playerAirborne).2.2 (by decide) rfl (by decide)⟩

/-! ## Per-phase projection lemmas (variant 3) -/

namespace TestReal

/-- The acceleration block never touches the player sprite. -/
theorem acceleration_update_player (s : GameState) :
    (acceleration_update s).player = s.player := by
  simp only [acceleration_update]
  split_ifs <;> rfl

/-- The acceleration block never touches the coins or the score. -/
theorem acceleration_update_coins_score (s : GameState) :
    (acceleration_update s).coins = s.coins ∧ (acceleration_update s).score = s.score := by
  simp only [acceleration_update]
  split_ifs <;> exact ⟨rfl, rfl⟩

/-- The animation phase is the identity when the player is airborne. -/
theorem animation_phase_false (s : GameState) :
    animation_phase false s = s := by
  simp [animation_phase]

/-- The horizontal-speed update only rewrites `change_x`; in particular the
pose counter, the vertical velocity, the acceleration, the coins and the
score are untouched. -/
theorem update_player_horizontal_speed_proj (s : GameState) :
    (update_player_horizontal_speed s).player.jump_state = s.player.jump_state ∧
    (update_player_horizontal_speed s).player.change_y = s.player.change_y ∧
    (update_player_horizontal_speed s).acceleration = s.acceleration ∧
    (update_player_horizontal_speed s).coins = s.coins ∧
    (update_player_horizontal_speed s).score = s.score := by
  simp only [update_player_horizontal_speed]
  split_ifs <;> exact ⟨rfl, rfl, rfl, rfl, rfl⟩

/-- The tick's pose counter is the animation phase's output (the later
phases never write it). -/
theorem on_update_jump_state (cj : Bool) (env : Env) (s : GameState) :
    (on_update cj env s).player.jump_state =
      if cj then (update_animation s.player).jump_state
      else s.player.jump_state := by
  simp only [on_update, animation_phase, coin_update, physics_update]
  rcases (update_player_horizontal_speed_proj
    (if cj then
      { acceleration_update { s with frame := s.frame + 1 } with
          player := update_animation (acceleration_update { s with frame := s.frame + 1 }).player }
      else acceleration_update { s with frame := s.frame + 1 })) with ⟨hjs, -, -, -, -⟩
  cases cj <;>
    simp_all [acceleration_update_player]

/-- The tick's acceleration is the acceleration block's output (the later
phases never write it). -/
theorem on_update_acceleration (cj : Bool) (env : Env) (s : GameState) :
    (on_update cj env s).acceleration =
      (acceleration_update { s with frame := s.frame + 1 }).acceleration := by
  simp only [on_update, animation_phase, coin_update, physics_update]
  rcases (update_player_horizontal_speed_proj
    (if cj then
      { acceleration_update { s with frame := s.frame + 1 } with
          player := update_animation (acceleration_update { s with frame := s.frame + 1 }).player }
      else acceleration_update { s with frame := s.frame + 1 })) with ⟨-, -, hacc, -, -⟩
  cases cj <;> simp_all

end TestReal

/-! ## Reachability invariants (variant 3) -/

namespace TestReal

/-- Every event handler keeps the pose counter in [1, 6]. -/
theorem step_jump_state_range (e : Event) (s : GameState)
    (h1 : 1 ≤ s.player.jump_state) (h6 : s.player.jump_state ≤ 6) :
    1 ≤ (step e s).player.jump_state ∧ (step e s).player.jump_state ≤ 6 := by
  cases e with
  | pressUp => simp [step, on_key_press_up]
  | pressLeft => exact ⟨h1, h6⟩
  | pressRight => exact ⟨h1, h6⟩
  | releaseUp cj =>
      simp only [step, on_key_release_up]
      split_ifs <;> simp_all
  | releaseLeft => exact ⟨h1, h6⟩
  | releaseRight => exact ⟨h1, h6⟩
  | tick cj env =>
      rw [step, on_update_jump_state]
      cases cj with
      | false => exact ⟨h1, h6⟩
      | true => simpa using update_animation_range s.player h1 h6

/-- Along every run, the pose counter stays in [1, 6]. -/
theorem run_jump_state_range (es : List Event) (s : GameState)
    (h1 : 1 ≤ s.player.jump_state) (h6 : s.player.jump_state ≤ 6) :
    1 ≤ (run es s).player.jump_state ∧ (run es s).player.jump_state ≤ 6 := by
  induction es generalizing s with
  | nil => exact ⟨h1, h6⟩
  | cons e es ih =>
      rcases step_jump_state_range e s h1 h6 with ⟨g1, g6⟩
      exact ih (step e s) g1 g6

/-- The acceleration block keeps the accumulator in [-1, 1]. -/
theorem acceleration_update_range (s : GameState)
    (hlo : -1 ≤ s.acceleration) (hhi : s.acceleration ≤ 1) :
    -1 ≤ (acceleration_update s).acceleration ∧
      (acceleration_update s).acceleration ≤ 1 := by
  unfold acceleration_update
  rw [if_pos ⟨hlo, hhi⟩]
  by_cases hr : (s.right_pressed = true) ∧ ¬ (s.left_pressed = true)
  · rw [if_pos hr]
    refine ⟨le_min ?_ ?_, min_le_right _ _⟩
    · simp only [ACCELERATION_RATE]; linarith
    · norm_num
  · rw [if_neg hr]
    by_cases hl : (s.left_pressed = true) ∧ ¬ (s.right_pressed = true)
    · rw [if_pos hl]
      refine ⟨le_max_right _ _, max_le ?_ ?_⟩
      · simp only [ACCELERATION_RATE]; linarith
      · norm_num
    · rw [if_neg hl]
      by_cases hneg : s.acceleration < 0
      · rw [if_pos hneg]
        refine ⟨le_min ?_ ?_, le_trans (min_le_right _ _) ?_⟩
        · simp only [DECELERATION_RATE]; linarith
        · norm_num
        · norm_num
      · rw [if_neg hneg]
        refine ⟨le_trans ?_ (le_max_right _ _), max_le ?_ ?_⟩
        · norm_num
        · simp only [DECELERATION_RATE]; linarith
        · norm_num

/-- Every event handler keeps the accumulator in [-1, 1]. -/
theorem step_acceleration_range (e : Event) (s : GameState)
    (hlo : -1 ≤ s.acceleration) (hhi : s.acceleration ≤ 1) :
    -1 ≤ (step e s).acceleration ∧ (step e s).acceleration ≤ 1 := by
  cases e with
  | pressUp => exact ⟨hlo, hhi⟩
  | pressLeft => exact ⟨hlo, hhi⟩
  | pressRight => exact ⟨hlo, hhi⟩
  | releaseUp cj =>
      simp only [step, on_key_release_up]
      split_ifs <;> exact ⟨hlo, hhi⟩
  | releaseLeft => exact ⟨hlo, hhi⟩
  | releaseRight => exact ⟨hlo, hhi⟩
  | tick cj env =>
      rw [step, on_update_acceleration]
      exact acceleration_update_range _ hlo hhi

/-- Along every run, the accumulator stays in [-1, 1]. -/
theorem run_acceleration_range (es : List Event) (s : GameState)
    (hlo : -1 ≤ s.acceleration) (hhi : s.acceleration ≤ 1) :
    -1 ≤ (run es s).acceleration ∧ (run es s).acceleration ≤ 1 := by
  induction es generalizing s with
  | nil => exact ⟨hlo, hhi⟩
  | cons e es ih =>
      rcases step_acceleration_range e s hlo hhi with ⟨g1, g2⟩
      exact ih (step e s) g1 g2

end TestReal

namespace TestReal

/-- If the (guarded) animation phase alters the vertical velocity at all,
then the guard `can_jump` was true, the pose counter was 6 on entry, the new
vertical velocity is the jump constant, and the counter restarts at 1. -/
theorem animation_phase_change_y (s : GameState) (cj : Bool)
    (h : (animation_phase cj s).player.change_y ≠ s.player.change_y) :
    cj = true ∧ s.player.jump_state = 6 ∧
      (animation_phase cj s).player.change_y = PLAYER_JUMP_SPEED ∧
      (animation_phase cj s).player.jump_state = 1 := by
  cases cj with
  | false => rw [animation_phase_false] at h; exact absurd rfl h
  | true =>
      have h' : (update_animation s.player).change_y ≠ s.player.change_y := by
        simpa [animation_phase] using h
      by_cases h6 : s.player.jump_state = 6
      · rcases update_animation_fire s.player h6 with ⟨hy, hs⟩
        exact ⟨rfl, h6, by simpa [animation_phase] using hy,
          by simpa [animation_phase] using hs⟩
      · rw [update_animation_change_y, if_neg h6] at h'
        exact absurd rfl h'

/-- Key-press and key-release handlers never write the vertical velocity. -/
theorem step_non_tick_change_y (e : Event) (s : GameState)
    (h : ∀ cj env, e ≠ Event.tick cj env) :
    (step e s).player.change_y = s.player.change_y := by
  cases e with
  | pressUp => rfl
  | pressLeft => rfl
  | pressRight => rfl
  | releaseUp cj =>
      simp only [step, on_key_release_up]
      split_ifs <;> rfl
  | releaseLeft => rfl
  | releaseRight => rfl
  | tick cj env => exact absurd rfl (h cj env)

end TestReal

/-! ## Claim C2 -/

/-- C2: in variant 3, along every sequence of update ticks and
key-press/key-release events from the initial state, `jump_state` stays in
[1, 6]; the jump impulse (the only write of `change_y` outside the physics
engine: key handlers never touch `change_y`) happens only at a tick whose
`can_jump` answer is true, only from pose 6, sets `change_y` to
`PLAYER_JUMP_SPEED`, and restarts the pose counter at 1 — so the counter
cycles 1→6→1 with exactly one impulse per cycle. -/
theorem jump_cycle_spec :
    (∀ (coins0 : List ℕ) (es : List TestReal.Event),
        1 ≤ (TestReal.run es (TestReal.initState coins0)).player.jump_state ∧
          (TestReal.run es (TestReal.initState coins0)).player.jump_state ≤ 6)
    ∧ (∀ (s : TestReal.GameState) (cj : Bool),
        (TestReal.animation_phase cj s).player.change_y ≠ s.player.change_y →
          cj = true ∧ s.player.jump_state = 6 ∧
            (TestReal.animation_phase cj s).player.change_y = TestReal.PLAYER_JUMP_SPEED ∧
            (TestReal.animation_phase cj s).player.jump_state = 1)
    ∧ (∀ (s : TestReal.GameState) (e : TestReal.Event),
        (∀ cj env, e ≠ TestReal.Event.tick cj env) →
          (TestReal.step e s).player.change_y = s.player.change_y) :=
  ⟨fun coins0 es => TestReal.run_jump_state_range es (TestReal.initState coins0)
      (by norm_num [TestReal.initState]) (by norm_num [TestReal.initState]),
    TestReal.animation_phase_change_y,
    fun s e => TestReal.step_non_tick_change_y e s⟩

/-- C2 exercised on concrete inputs: the empty run keeps the counter at 1;
a grounded animation tick from pose 6 fires the impulse; pressing UP does
not touch the vertical velocity. -/
theorem jump_cycle_spec_witness :
    (1 ≤ (TestReal.run [] (TestReal.initState [])).player.jump_state ∧
        (TestReal.run [] (TestReal.initState [])).player.jump_state ≤ 6)
    ∧ (true = true ∧ gameFiring.player.jump_state = 6 ∧
        (TestReal.animation_phase true gameFiring).player.change_y =
          TestReal.PLAYER_JUMP_SPEED ∧
        (TestReal.animation_phase true gameFiring).player.jump_state = 1)
    ∧ (TestReal.step TestReal.Event.pressUp gameFiring).player.change_y =
        gameFiring.player.change_y :=
  ⟨jump_cycle_spec.1 [] [],
    jump_cycle_spec.2.1 gameFiring true (by decide),
    jump_cycle_spec.2.2 gameFiring TestReal.Event.pressUp
      (fun cj env h => TestReal.Event.noConfusion h)⟩

/-! ## Claim C3 -/

/-- C3: in variant 3, starting from `acceleration = 0` (the constructor's
value), along every sequence of events — every tick seeing whatever
left/right flags the preceding presses and releases left set — the
`acceleration` field never leaves [-1, 1]. -/
theorem acceleration_bounded :
    ∀ (coins0 : List ℕ) (es : List TestReal.Event),
      -1 ≤ (TestReal.run es (TestReal.initState coins0)).acceleration ∧
        (TestReal.run es (TestReal.initState coins0)).acceleration ≤ 1 :=
  fun coins0 es => TestReal.run_acceleration_range es (TestReal.initState coins0)
    (by norm_num [TestReal.initState]) (by norm_num [TestReal.initState])

/-! ## Claim C4 -/

/-- C4: in variant 3's per-tick acceleration update, whenever `acceleration`
is within [-1, 1] at the start of `on_update`: if exactly the right key is
held it increases by `ACCELERATION_RATE` clamped above at 1; if exactly the
left key is held it decreases by `ACCELERATION_RATE` clamped below at -1;
if neither or both keys are held its magnitude shrinks by
`DECELERATION_RATE` (to at least 0) and its sign never flips — it moves
toward 0 without crossing 0.  Both rates are 0.1. -/
theorem acceleration_step_spec (s : TestReal.GameState)
    (hlo : -1 ≤ s.acceleration) (hhi : s.acceleration ≤ 1) :
    (s.right_pressed = true → s.left_pressed = false →
        (TestReal.acceleration_update s).acceleration =
          min (s.acceleration + TestReal.ACCELERATION_RATE) 1)
    ∧ (s.left_pressed = true → s.right_pressed = false →
        (TestReal.acceleration_update s).acceleration =
          max (s.acceleration - TestReal.ACCELERATION_RATE) (-1))
    ∧ (s.left_pressed = s.right_pressed →
        |(TestReal.acceleration_update s).acceleration| =
          max (|s.acceleration| - TestReal.DECELERATION_RATE) 0 ∧
        0 ≤ s.acceleration * (TestReal.acceleration_update s).acceleration)
    ∧ TestReal.ACCELERATION_RATE = 1 / 10 ∧ TestReal.DECELERATION_RATE = 1 / 10 := by
  refine ⟨fun hr hl => ?_, fun hl hr => ?_, fun hlr => ?_, rfl, rfl⟩
  · unfold TestReal.acceleration_update
    rw [if_pos ⟨hlo, hhi⟩, if_pos ⟨hr, by simp [hl]⟩]
  · unfold TestReal.acceleration_update
    rw [if_pos ⟨hlo, hhi⟩, if_neg (by simp [hl, hr]), if_pos ⟨hl, by simp [hr]⟩]
  · unfold TestReal.acceleration_update
    have hnr : ¬(s.right_pressed = true ∧ ¬ s.left_pressed = true) := by
      rintro ⟨h1, h2⟩; exact h2 (hlr.trans h1)
    have hnl : ¬(s.left_pressed = true ∧ ¬ s.right_pressed = true) := by
      rintro ⟨h1, h2⟩; exact h2 (hlr.symm.trans h1)
    rw [if_pos ⟨hlo, hhi⟩, if_neg hnr, if_neg hnl]
    by_cases hneg : s.acceleration < 0
    · rw [if_pos hneg]
      have habs : |s.acceleration| = -s.acceleration := abs_of_neg hneg
      constructor
      · show |min (s.acceleration + TestReal.DECELERATION_RATE) 0| = _
        by_cases hsm : s.acceleration + TestReal.DECELERATION_RATE ≤ 0
        · rw [min_eq_left hsm, abs_of_nonpos hsm, habs,
            max_eq_left (by simp only [TestReal.DECELERATION_RATE] at *; linarith)]
          ring
        · push_neg at hsm
          rw [min_eq_right (le_of_lt hsm), abs_zero, habs,
            max_eq_right (by simp only [TestReal.DECELERATION_RATE] at *; linarith)]
      · show 0 ≤ s.acceleration * min (s.acceleration + TestReal.DECELERATION_RATE) 0
        have hm : min (s.acceleration + TestReal.DECELERATION_RATE) 0 ≤ 0 :=
          min_le_right _ _
        nlinarith
    · rw [if_neg hneg]
      push_neg at hneg
      have habs : |s.acceleration| = s.acceleration := abs_of_nonneg hneg
      constructor
      · show |max (s.acceleration - TestReal.DECELERATION_RATE) 0| = _
        rw [abs_of_nonneg (le_max_right _ _), habs]
      · show 0 ≤ s.acceleration * max (s.acceleration - TestReal.DECELERATION_RATE) 0
        exact mul_nonneg hneg (le_max_right _ _)

/-- C4 exercised on concrete inputs: a right-held tick at acceleration 1/2
nudges it up by the rate; a no-key tick at acceleration 0 keeps it at 0. -/
theorem acceleration_step_spec_witness :
    (TestReal.acceleration_update gameRunning).acceleration =
      min (gameRunning.acceleration + TestReal.ACCELERATION_RATE) 1
    ∧ |(TestReal.acceleration_update gameFiring).acceleration| =
        max (|gameFiring.acceleration| - TestReal.DECELERATION_RATE) 0 :=
  ⟨(acceleration_step_spec gameRunning (by decide) (by decide)).1 rfl rfl,
    ((acceleration_step_spec gameFiring (by decide) (by decide)).2.2.1 rfl).1⟩

/-! ## Claim C10 -/

/-- C10 (implicit): in variant 3, for every acceleration value in [-1, 1]
and every combination of the left/right flags, after
`update_player_horizontal_speed` the player's `change_x` lies within
[-PLAYER_MOVEMENT_SPEED, PLAYER_MOVEMENT_SPEED] = [-5, 5]. -/
theorem change_x_bounded (s : TestReal.GameState)
    (hlo : -1 ≤ s.acceleration) (hhi : s.acceleration ≤ 1) :
    -TestReal.PLAYER_MOVEMENT_SPEED ≤
        (TestReal.update_player_horizontal_speed s).player.change_x ∧
      (TestReal.update_player_horizontal_speed s).player.change_x ≤
        TestReal.PLAYER_MOVEMENT_SPEED ∧
      TestReal.PLAYER_MOVEMENT_SPEED = 5 := by
  have hmain : -(5 : ℚ) ≤ (TestReal.update_player_horizontal_speed s).player.change_x ∧
      (TestReal.update_player_horizontal_speed s).player.change_x ≤ 5 := by
    simp only [TestReal.update_player_horizontal_speed, TestReal.PLAYER_MOVEMENT_SPEED]
    split_ifs with h1 h2 h3
    · constructor
      · exact le_max_left _ _
      · exact max_le (by norm_num)
          (le_trans (min_le_left _ _) (by linarith))
    · constructor
      · exact le_min (by norm_num)
          (le_trans (by linarith) (le_max_left _ _))
      · exact min_le_left _ _
    · constructor
      · show -(5 : ℚ) ≤ 5 * s.acceleration
        linarith
      · show (5 : ℚ) * s.acceleration ≤ 5
        linarith
    · exfalso
      cases hL : s.left_pressed <;> cases hR : s.right_pressed <;>
        simp_all
  exact ⟨hmain.1, hmain.2, rfl⟩

/-- C10 exercised on a concrete input: right held at acceleration 1/2. -/
theorem change_x_bounded_witness :
    -TestReal.PLAYER_MOVEMENT_SPEED ≤
        (TestReal.update_player_horizontal_speed gameRunning).player.change_x ∧
      (TestReal.update_player_horizontal_speed gameRunning).player.change_x ≤
        TestReal.PLAYER_MOVEMENT_SPEED ∧
      TestReal.PLAYER_MOVEMENT_SPEED = 5 :=
  change_x_bounded gameRunning (by decide) (by decide)

/-! ## Claim C5 -/

/-- C5: in variants 1/2 (src/arcarde_tutorial.py), for all four combinations
of the left/right flags, after `update_player_horizontal_speed`:
`change_x = -PLAYER_MOVEMENT_SPEED` (-10) when only left is pressed,
`change_x = PLAYER_MOVEMENT_SPEED` (10) when only right is pressed, and
`change_x = 0` when the two flags are equal. -/
theorem horizontal_speed_spec (s : Tutorial.GameState) :
    (s.left_pressed = true → s.right_pressed = false →
        (Tutorial.update_player_horizontal_speed s).change_x =
          -Tutorial.PLAYER_MOVEMENT_SPEED)
    ∧ (s.right_pressed = true → s.left_pressed = false →
        (Tutorial.update_player_horizontal_speed s).change_x =
          Tutorial.PLAYER_MOVEMENT_SPEED)
    ∧ (s.left_pressed = s.right_pressed →
        (Tutorial.update_player_horizontal_speed s).change_x = 0)
    ∧ Tutorial.PLAYER_MOVEMENT_SPEED = 10 := by
  refine ⟨fun hl hr => ?_, fun hr hl => ?_, fun hlr => ?_, rfl⟩
  · unfold Tutorial.update_player_horizontal_speed
    rw [if_pos ⟨hl, by simp [hr]⟩]
  · unfold Tutorial.update_player_horizontal_speed
    rw [if_neg (by simp [hl, hr]), if_pos ⟨hr, by simp [hl]⟩]
  · unfold Tutorial.update_player_horizontal_speed
    have hnl : ¬(s.left_pressed = true ∧ ¬ s.right_pressed = true) := by
      rintro ⟨h1, h2⟩; exact h2 (hlr.symm.trans h1)
    have hnr : ¬(s.right_pressed = true ∧ ¬ s.left_pressed = true) := by
      rintro ⟨h1, h2⟩; exact h2 (hlr.trans h1)
    rw [if_neg hnl, if_neg hnr, if_pos hlr.symm]

/-- C5 exercised on a concrete input: left held alone gives -10. -/
theorem horizontal_speed_spec_witness :
    (Tutorial.update_player_horizontal_speed tutorialLeft).change_x =
      -Tutorial.PLAYER_MOVEMENT_SPEED :=
  (horizontal_speed_spec tutorialLeft).1 rfl rfl

/-! ## Claim C9 -/

/-- C9 (implicit): in variants 1/2, whenever `update_player_vertical_speed`
runs with `up_pressed` false — in particular on every UP key release —
the player's `change_y` is replaced by `min change_y 0`, so releasing UP
mid-jump cuts any upward velocity to zero immediately. -/
theorem vertical_release_spec :
    (∀ (s : Tutorial.GameState) (cj : Bool), s.up_pressed = false →
        (Tutorial.update_player_vertical_speed cj s).change_y = min s.change_y 0)
    ∧ (∀ (s : Tutorial.GameState) (cj : Bool),
        (Tutorial.on_key_release Tutorial.Key.up cj s).change_y = min s.change_y 0) := by
  constructor
  · intro s cj h
    unfold Tutorial.update_player_vertical_speed
    rw [if_neg (by simp [h])]
  · intro s cj
    show (Tutorial.update_player_vertical_speed cj
      { s with up_pressed := false }).change_y = min s.change_y 0
    unfold Tutorial.update_player_vertical_speed
    rw [if_neg (by simp)]

/-- C9 exercised on a concrete input: releasing UP while rising at
`change_y = 3` clips the vertical velocity to `min 3 0`. -/
theorem vertical_release_spec_witness :
    (Tutorial.update_player_vertical_speed true tutorialLeft).change_y =
      min tutorialLeft.change_y 0 :=
  vertical_release_spec.1 tutorialLeft true rfl

/-! ## Claim C6 -/

/-- C6: in both source files, `change_y` is set to the jump speed only when
the physics engine's `can_jump()` reports the player grounded.  In variants
1/2, `update_player_vertical_speed` writes the jump speed (where it was not
already) only with `can_jump` true and UP pressed, and an UP press while
airborne leaves `change_y` unchanged.  In variant 3, the UP key handlers
never write `change_y` at all, and the animation-phase impulse (the only
jump write) runs only under the `can_jump()` guard of `on_update`. -/
theorem jump_only_when_grounded :
    (∀ (s : Tutorial.GameState) (cj : Bool),
        (Tutorial.update_player_vertical_speed cj s).change_y =
            Tutorial.PLAYER_JUMP_SPEED →
          s.change_y ≠ Tutorial.PLAYER_JUMP_SPEED →
          cj = true ∧ s.up_pressed = true)
    ∧ (∀ s : Tutorial.GameState,
        (Tutorial.on_key_press Tutorial.Key.up false s).change_y = s.change_y)
    ∧ (∀ s : TestReal.GameState,
        (TestReal.step TestReal.Event.pressUp s).player.change_y =
          s.player.change_y)
    ∧ (∀ (s : TestReal.GameState) (cj : Bool),
        (TestReal.step (TestReal.Event.releaseUp cj) s).player.change_y =
          s.player.change_y)
    ∧ (∀ (s : TestReal.GameState) (cj : Bool),
        (TestReal.animation_phase cj s).player.change_y ≠ s.player.change_y →
          cj = true ∧
            (TestReal.animation_phase cj s).player.change_y =
              TestReal.PLAYER_JUMP_SPEED) := by
  refine ⟨?_, ?_, ?_, ?_, ?_⟩
  · intro s cj hset hnew
    by_cases hup : s.up_pressed = true
    · cases cj with
      | true => exact ⟨rfl, hup⟩
      | false =>
          exfalso
          apply hnew
          rw [← hset]
          unfold Tutorial.update_player_vertical_speed
          rw [if_pos hup, if_neg (by simp)]
    · exfalso
      rw [Tutorial.update_player_vertical_speed, if_neg hup] at hset
      have hmin : min s.change_y 0 ≤ 0 := min_le_right _ _
      rw [show ({ s with change_y := min s.change_y 0 } :
        Tutorial.GameState).change_y = min s.change_y 0 from rfl] at hset
      rw [hset] at hmin
      norm_num [Tutorial.PLAYER_JUMP_SPEED] at hmin
  · intro s; rfl
  · intro s; rfl
  · intro s cj
    show (TestReal.on_key_release_up cj s).player.change_y = s.player.change_y
    simp only [TestReal.on_key_release_up]
    split_ifs <;> rfl
  · intro s cj h
    rcases TestReal.animation_phase_change_y s cj h with ⟨hcj, -, hy, -⟩
    exact ⟨hcj, hy⟩

/-- C6 exercised on concrete inputs: grounded UP-jump gives both
conclusions; an airborne (can_jump false) UP press leaves the tutorial
vertical velocity alone; pressing UP in variant 3 leaves it alone. -/
theorem jump_only_when_grounded_witness :
    (true = true ∧ tutorialJumping.up_pressed = true)
    ∧ (Tutorial.on_key_press Tutorial.Key.up false tutorialJumping).change_y =
        tutorialJumping.change_y
    ∧ (TestReal.step TestReal.Event.pressUp gameRunning).player.change_y =
        gameRunning.player.change_y :=
  ⟨jump_only_when_grounded.1 tutorialJumping true (by decide) (by decide),
    jump_only_when_grounded.2.1 tutorialJumping,
    jump_only_when_grounded.2.2.1 gameRunning⟩

/-! ## Score and coin lemmas -/

namespace Tutorial

/-- The tutorial tick adds exactly the number of overlapping coins to the
score and removes exactly those coins from the sprite lists. -/
theorem on_update_score_coins (env : Env) (s : GameState) :
    (on_update env s).score =
        s.score + (s.coins.filter (fun c => env.overlaps c)).length ∧
      (on_update env s).coins = s.coins.filter (fun c => ! env.overlaps c) :=
  ⟨rfl, rfl⟩

/-- The vertical-speed update never touches the score. -/
theorem update_player_vertical_speed_score (cj : Bool) (s : GameState) :
    (update_player_vertical_speed cj s).score = s.score := by
  simp only [update_player_vertical_speed]
  split_ifs <;> rfl

/-- The horizontal-speed update never touches the score. -/
theorem update_player_horizontal_speed_score (s : GameState) :
    (update_player_horizontal_speed s).score = s.score := by
  simp only [update_player_horizontal_speed]
  split_ifs <;> rfl

/-- No event handler ever decreases the score. -/
theorem step_score_le (e : Event) (s : GameState) : s.score ≤ (step e s).score := by
  cases e with
  | press k cj =>
      cases k with
      | up =>
          show s.score ≤ (on_key_press Key.up cj s).score
          simp only [on_key_press]
          split_ifs
          · rw [update_player_vertical_speed_score]
          · exact le_refl _
      | left =>
          show s.score ≤ (on_key_press Key.left cj s).score
          rw [on_key_press, update_player_horizontal_speed_score]
      | right =>
          show s.score ≤ (on_key_press Key.right cj s).score
          rw [on_key_press, update_player_horizontal_speed_score]
      | down => exact le_refl _
      | other => exact le_refl _
  | release k cj =>
      cases k with
      | up =>
          show s.score ≤ (on_key_release Key.up cj s).score
          rw [on_key_release, update_player_vertical_speed_score]
      | left =>
          show s.score ≤ (on_key_release Key.left cj s).score
          rw [on_key_release, update_player_horizontal_speed_score]
      | right =>
          show s.score ≤ (on_key_release Key.right cj s).score
          rw [on_key_release, update_player_horizontal_speed_score]
      | down => exact le_refl _
      | other => exact le_refl _
  | tick env =>
      rw [step, (on_update_score_coins env s).1]
      exact Nat.le_add_right _ _

/-- The score never decreases along any run. -/
theorem run_score_le (es : List Event) (s : GameState) :
    s.score ≤ (run es s).score := by
  induction es generalizing s with
  | nil => exact le_refl _
  | cons e es ih => exact le_trans (step_score_le e s) (ih (step e s))

end Tutorial

namespace TestReal

/-- The animation phase never touches the coins or the score. -/
theorem animation_phase_coins_score (cj : Bool) (s : GameState) :
    (animation_phase cj s).coins = s.coins ∧ (animation_phase cj s).score = s.score := by
  cases cj <;> simp [animation_phase]

/-- The variant-3 tick adds exactly the number of overlapping coins to the
score and removes exactly those coins from the sprite lists. -/
theorem on_update_score_coins_v3 (cj : Bool) (env : Env) (s : GameState) :
    (on_update cj env s).score =
        s.score + (s.coins.filter (fun c => env.overlaps c)).length ∧
      (on_update cj env s).coins = s.coins.filter (fun c => ! env.overlaps c) := by
  have hf : ∀ t : GameState,
      ({ t with frame := t.frame + 1 } : GameState).coins = t.coins ∧
        ({ t with frame := t.frame + 1 } : GameState).score = t.score :=
    fun t => ⟨rfl, rfl⟩
  simp only [on_update, coin_update, physics_update]
  rcases acceleration_update_coins_score { s with frame := s.frame + 1 } with ⟨ha1, ha2⟩
  rcases animation_phase_coins_score cj
    (acceleration_update { s with frame := s.frame + 1 }) with ⟨hb1, hb2⟩
  rcases update_player_horizontal_speed_proj
    (animation_phase cj (acceleration_update { s with frame := s.frame + 1 }))
    with ⟨-, -, -, hc1, hc2⟩
  constructor <;> simp_all

/-- No event handler ever decreases the variant-3 score. -/
theorem step_score_le_v3 (e : Event) (s : GameState) : s.score ≤ (step e s).score := by
  cases e with
  | pressUp => exact le_refl _
  | pressLeft => exact le_refl _
  | pressRight => exact le_refl _
  | releaseUp cj =>
      simp only [step, on_key_release_up]
      split_ifs <;> exact le_refl _
  | releaseLeft => exact le_refl _
  | releaseRight => exact le_refl _
  | tick cj env =>
      rw [step, (on_update_score_coins_v3 cj env s).1]
      exact Nat.le_add_right _ _

/-- The variant-3 score never decreases along any run. -/
theorem run_score_le_v3 (es : List Event) (s : GameState) :
    s.score ≤ (run es s).score := by
  induction es generalizing s with
  | nil => exact le_refl _
  | cons e es ih => exact le_trans (step_score_le_v3 e s) (ih (step e s))

end TestReal

/-! ## Claim C7 -/

/-- C7: on every `on_update` tick (both variants), each coin the collision
query reports as overlapping the player is removed from the sprite lists and
the score grows by exactly one per such coin — so the tick adds exactly the
number of overlapping coins, and the score never decreases along any event
sequence. -/
theorem coin_score_spec :
    (∀ (env : Tutorial.Env) (s : Tutorial.GameState),
        (Tutorial.on_update env s).score =
            s.score + (s.coins.filter (fun c => env.overlaps c)).length ∧
          (Tutorial.on_update env s).coins =
            s.coins.filter (fun c => ! env.overlaps c))
    ∧ (∀ (es : List Tutorial.Event) (s : Tutorial.GameState),
        s.score ≤ (Tutorial.run es s).score)
    ∧ (∀ (cj : Bool) (env : TestReal.Env) (s : TestReal.GameState),
        (TestReal.on_update cj env s).score =
            s.score + (s.coins.filter (fun c => env.overlaps c)).length ∧
          (TestReal.on_update cj env s).coins =
            s.coins.filter (fun c => ! env.overlaps c))
    ∧ (∀ (es : List TestReal.Event) (s : TestReal.GameState),
        s.score ≤ (TestReal.run es s).score) :=
  ⟨Tutorial.on_update_score_coins,
    fun es s => Tutorial.run_score_le es s,
    TestReal.on_update_score_coins_v3,
    fun es s => TestReal.run_score_le_v3 es s⟩

/-! ## Claim C8 -/

/-- C8: after every call of `center_camera_to_player`, the camera sits at
the player centre minus half the viewport extent, clamped below
componentwise at (0, 0) in variants 1/2 and at (32, 0) in variant 3 — so
the offset is always at least the configured minimum on both axes.  The
last two conjuncts tie the pure function back to the ticks: each variant's
`on_update` moves the camera to exactly this offset computed from the
player's post-physics centre and the 1000 × 650 viewport. -/
theorem camera_clamp_spec :
    (∀ px py vw vh : ℚ,
        Tutorial.center_camera_to_player px py vw vh =
            (max (px - vw / 2) 0, max (py - vh / 2) 0) ∧
          0 ≤ (Tutorial.center_camera_to_player px py vw vh).1 ∧
          0 ≤ (Tutorial.center_camera_to_player px py vw vh).2)
    ∧ (∀ px py vw vh : ℚ,
        TestReal.center_camera_to_player px py vw vh =
            (max (px - vw / 2) 32, max (py - vh / 2) 0) ∧
          32 ≤ (TestReal.center_camera_to_player px py vw vh).1 ∧
          0 ≤ (TestReal.center_camera_to_player px py vw vh).2)
    ∧ (∀ (env : Tutorial.Env) (s : Tutorial.GameState),
        (Tutorial.on_update env s).camera =
          Tutorial.center_camera_to_player env.newCenterX env.newCenterY 1000 650)
    ∧ (∀ (cj : Bool) (env : TestReal.Env) (s : TestReal.GameState),
        (TestReal.on_update cj env s).camera =
          TestReal.center_camera_to_player env.newCenterX env.newCenterY 1000 650) := by
  have hmax : ∀ x m : ℚ, (if x < m then m else x) = max x m := by
    intro x m
    split_ifs with h
    · exact (max_eq_right (le_of_lt h)).symm
    · exact (max_eq_left (not_lt.mp h)).symm
  refine ⟨fun px py vw vh => ?_, fun px py vw vh => ?_, fun env s => rfl, ?_⟩
  · constructor
    · show ((if px - vw / 2 < 0 then 0 else px - vw / 2),
        (if py - vh / 2 < 0 then 0 else py - vh / 2)) = _
      rw [hmax, hmax]
    · constructor
      · show (0 : ℚ) ≤ (if px - vw / 2 < 0 then 0 else px - vw / 2)
        rw [hmax]; exact le_max_right _ _
      · show (0 : ℚ) ≤ (if py - vh / 2 < 0 then 0 else py - vh / 2)
        rw [hmax]; exact le_max_right _ _
  · constructor
    · show ((if px - vw / 2 < 32 then 32 else px - vw / 2),
        (if py - vh / 2 < 0 then 0 else py - vh / 2)) = _
      rw [hmax, hmax]
    · constructor
      · show (32 : ℚ) ≤ (if px - vw / 2 < 32 then 32 else px - vw / 2)
        rw [hmax]; exact le_max_right _ _
      · show (0 : ℚ) ≤ (if py - vh / 2 < 0 then 0 else py - vh / 2)
        rw [hmax]; exact le_max_right _ _
  · intro cj env s
    rfl
